import Mathlib

/-!
Shallow embedding of the social-ai-agent core: the durable job queue
(src/queue/index.ts), the content-record approval operations
(src/services/post.service.ts), the circuit breaker
(src/circuit-breaker/index.ts) and the error normalisation in the
OpenAI adapter (src/llm/openai.ts).

Timestamps are modelled as natural numbers (milliseconds since epoch);
the SQLite tables `job_queue` and `posts` are modelled as lists of rows.
`UPDATE ... WHERE id = ?` becomes a map over the list that rewrites the
rows whose id matches.
-/

namespace SocialAgent

/-! ## Job queue data model (src/queue/types.ts, src/queue/index.ts) -/

inductive JobStatus
  | pending
  | processing
  | completed
  | dead
deriving DecidableEq, Repr

structure Job where
  id : String
  jobType : String
  payload : String
  status : JobStatus
  attempts : Nat
  max_retries : Nat
  next_run_at : Nat
  last_error : Option String
  created_at : Nat
  updated_at : Nat
deriving DecidableEq, Repr

/-- Models `UPDATE job_queue SET ... WHERE id = ?`: rewrite every row whose id
matches (the id column is the primary key, so at most one in practice). -/
def updateJobById (id : String) (f : Job → Job) (q : List Job) : List Job :=
  q.map (fun k => if k.id = id then f k else k)

/-- Base backoff in seconds, doubling with each failed attempt
(BASE_BACKOFF_SECONDS in src/queue/index.ts). -/
def BASE_BACKOFF_SECONDS : Nat := 30

/-- Jobs stuck in processing longer than this are assumed crashed
(STUCK_THRESHOLD_MINUTES in src/queue/index.ts), in milliseconds. -/
def STUCK_THRESHOLD_MS : Nat := 5 * 60 * 1000

/-- Models `JobQueue.enqueue`: insert a fresh pending row; `nextRunAt` is now
plus the optional delay, attempts start at 0. -/
def enqueue (id ty payload : String) (maxRetries : Nat) (delayMs : Option Nat)
    (now : Nat) (q : List Job) : List Job :=
  q ++ [{ id := id, jobType := ty, payload := payload, status := .pending,
          attempts := 0, max_retries := maxRetries,
          next_run_at := now + delayMs.getD 0, last_error := none,
          created_at := now, updated_at := now }]

/-- A row the dequeue subquery matches: status pending and `next_run_at <= now`. -/
def jobEligible (now : Nat) (j : Job) : Prop :=
  j.status = .pending ∧ j.next_run_at ≤ now

instance (now : Nat) (j : Job) : Decidable (jobEligible now j) := by
  unfold jobEligible; infer_instance

/-- One step of the minimum selection: prefer `j` over the best candidate
found so far when `j` is eligible and not later. -/
def selectBetter (now : Nat) (j : Job) : Option Job → Option Job
  | none => if jobEligible now j then some j else none
  | some k =>
    if jobEligible now j ∧ j.next_run_at ≤ k.next_run_at then some j else some k

/-- The subquery (SELECT id of a pending row with `next_run_at <= now`,
ordered by `next_run_at` ascending, LIMIT 1): pick an eligible row of minimal
`next_run_at` (first such row on ties). -/
def selectNext (now : Nat) : List Job → Option Job
  | [] => none
  | j :: rest => selectBetter now j (selectNext now rest)

/-- Models `JobQueue.dequeueNext`: atomically claim the selected row, set it to
processing and return the updated row (`UPDATE ... RETURNING *`). -/
def dequeueNext (now : Nat) (q : List Job) : Option Job × List Job :=
  match selectNext now q with
  | none => (none, q)
  | some j =>
    let claimed : Job := { j with status := .processing, updated_at := now }
    (some claimed, updateJobById j.id (fun k =>
      { k with status := .processing, updated_at := now }) q)

/-- Models `JobQueue.markCompleted`. -/
def markCompleted (id : String) (now : Nat) (q : List Job) : List Job :=
  updateJobById id (fun k => { k with status := .completed, updated_at := now }) q

/-- The row update `markFailed` performs once it has read the job:
dead-letter when the incremented attempts reach `max_retries`, otherwise
reschedule with exponential backoff `30 * 2^(previous attempts)` seconds. -/
def failUpdate (job : Job) (errMsg : String) (now : Nat) (k : Job) : Job :=
  if job.attempts + 1 ≥ job.max_retries then
    { k with status := .dead, attempts := job.attempts + 1,
             last_error := some errMsg, updated_at := now }
  else
    { k with status := .pending, attempts := job.attempts + 1,
             last_error := some errMsg,
             next_run_at := now + BASE_BACKOFF_SECONDS * 2 ^ job.attempts * 1000,
             updated_at := now }

/-- Models `JobQueue.markFailed`: read the job by id (no-op when absent), then
apply `failUpdate` to its row. -/
def markFailed (id errMsg : String) (now : Nat) (q : List Job) : List Job :=
  match q.find? (fun j => j.id = id) with
  | none => q
  | some job => updateJobById id (failUpdate job errMsg now) q

/-- The WHERE clause of `resetStuck`: status processing and
`updated_at < cutoff` with `cutoff = now - 5 minutes`. -/
def jobStuck (now : Nat) (j : Job) : Prop :=
  j.status = .processing ∧ j.updated_at < now - STUCK_THRESHOLD_MS

instance (now : Nat) (j : Job) : Decidable (jobStuck now j) := by
  unfold jobStuck; infer_instance

/-- Models `JobQueue.resetStuck`: reset every stuck row to pending and return the
number of rows changed. -/
def resetStuck (now : Nat) (q : List Job) : Nat × List Job :=
  ((q.filter (fun j => decide (jobStuck now j))).length,
   q.map (fun k => if jobStuck now k then { k with status := .pending, updated_at := now } else k))

/-! ### Helper lemmas about `updateJobById` and `selectNext` -/

theorem updateJobById_id_map (id : String) (f : Job → Job)
    (hf : ∀ k, (f k).id = k.id) (q : List Job) :
    (updateJobById id f q).map Job.id = q.map Job.id := by
  induction q with
  | nil => rfl
  | cons a t ih =>
    simp only [updateJobById, List.map_cons, List.map_map] at *
    by_cases h : a.id = id <;> simp [h, hf, ih]

theorem find?_updateJobById (id : String) (f : Job → Job)
    (hf : ∀ k, (f k).id = k.id) (q : List Job) :
    (updateJobById id f q).find? (fun j => j.id = id)
      = (q.find? (fun j => j.id = id)).map f := by
  induction q with
  | nil => rfl
  | cons a t ih =>
    by_cases h : a.id = id
    · have h1 : (f a).id = id := by rw [hf]; exact h
      simp only [updateJobById, List.map_cons, if_pos h]
      rw [List.find?_cons_of_pos _ (by simp [h1]),
          List.find?_cons_of_pos _ (by simp [h])]
      rfl
    · simp only [updateJobById, List.map_cons, if_neg h]
      rw [List.find?_cons_of_neg _ (by simp [h]),
          List.find?_cons_of_neg _ (by simp [h])]
      exact ih

theorem mem_updateJobById {p : Job} {id : String} {f : Job → Job} {q : List Job}
    (hp : p ∈ updateJobById id f q) :
    ∃ k ∈ q, p = if k.id = id then f k else k := by
  rcases List.mem_map.mp hp with ⟨k, hk, hkp⟩
  exact ⟨k, hk, hkp.symm⟩

theorem updateJobById_mem_of_ne {k : Job} {id : String} {f : Job → Job} {q : List Job}
    (hk : k ∈ q) (hne : k.id ≠ id) : k ∈ updateJobById id f q := by
  have : (if k.id = id then f k else k) = k := if_neg hne
  exact this ▸ List.mem_map_of_mem _ hk

theorem selectNext_mem {now : Nat} {q : List Job} {j : Job}
    (h : selectNext now q = some j) : j ∈ q ∧ jobEligible now j := by
  induction q with
  | nil => simp [selectNext] at h
  | cons a t ih =>
    rw [selectNext] at h
    cases hrec : selectNext now t with
    | none =>
      rw [hrec, selectBetter] at h
      by_cases ha : jobEligible now a
      · rw [if_pos ha] at h
        cases h
        exact ⟨List.mem_cons_self _ _, ha⟩
      · rw [if_neg ha] at h; cases h
    | some k =>
      rw [hrec, selectBetter] at h
      by_cases hcond : jobEligible now a ∧ a.next_run_at ≤ k.next_run_at
      · rw [if_pos hcond] at h
        cases h
        exact ⟨List.mem_cons_self _ _, hcond.1⟩
      · rw [if_neg hcond] at h
        cases h
        rcases ih hrec with ⟨hmem, helig⟩
        exact ⟨List.mem_cons_of_mem _ hmem, helig⟩

theorem selectNext_eq_none {now : Nat} {q : List Job} :
    selectNext now q = none ↔ ∀ k ∈ q, ¬ jobEligible now k := by
  induction q with
  | nil => simp [selectNext]
  | cons a t ih =>
    rw [selectNext]
    cases hrec : selectNext now t with
    | none =>
      rw [selectBetter]
      by_cases ha : jobEligible now a
      · rw [if_pos ha]
        simp only [List.mem_cons]
        constructor
        · intro h; cases h
        · intro h; exact absurd ha (h a (Or.inl rfl))
      · rw [if_neg ha]
        simp only [List.mem_cons, true_iff]
        intro k hk
        rcases hk with rfl | hk'
        · exact ha
        · exact (ih.mp hrec) k hk'
    | some c =>
      rw [selectBetter]
      constructor
      · intro h; split at h <;> cases h
      · intro h
        exfalso
        rcases selectNext_mem hrec with ⟨hmem, helig⟩
        exact h c (List.mem_cons_of_mem _ hmem) helig

theorem selectNext_min {now : Nat} {q : List Job} {j : Job}
    (h : selectNext now q = some j) :
    ∀ k ∈ q, jobEligible now k → j.next_run_at ≤ k.next_run_at := by
  induction q generalizing j with
  | nil => simp [selectNext] at h
  | cons a t ih =>
    intro k hk hke
    rw [selectNext] at h
    cases hrec : selectNext now t with
    | none =>
      rw [hrec, selectBetter] at h
      by_cases ha : jobEligible now a
      · rw [if_pos ha] at h
        cases h
        rcases List.mem_cons.mp hk with rfl | hk'
        · exact le_refl _
        · exact absurd hke ((selectNext_eq_none.mp hrec) k hk')
      · rw [if_neg ha] at h; cases h
    | some c =>
      rw [hrec, selectBetter] at h
      by_cases hcond : jobEligible now a ∧ a.next_run_at ≤ c.next_run_at
      · rw [if_pos hcond] at h
        injection h with h2
        subst h2
        rcases List.mem_cons.mp hk with rfl | hk'
        · exact le_refl _
        · exact le_trans hcond.2 (ih hrec k hk' hke)
      · rw [if_neg hcond] at h
        injection h with h2
        subst h2
        rcases List.mem_cons.mp hk with rfl | hk'
        · rcases Decidable.not_and_iff_or_not.mp hcond with hna | hnle
          · exact absurd hke hna
          · exact le_of_lt (lt_of_not_le hnle)
        · exact ih hrec k hk' hke

/-! ## Content records and approval operations
(src/types.ts, src/services/post.service.ts) -/

inductive PostStatus
  | pending
  | approved
  | rejected
  | posted
  | failed_post
  | failed_approval_send
deriving DecidableEq, Repr

structure Post where
  id : String
  message : String
  status : PostStatus
  external_id : Option String
  approved_at : Option Nat
  approved_by : Option String
  rejected_by : Option String
  approval_source : Option String
  updated_at : Nat
deriving DecidableEq, Repr

/-- Models `UPDATE posts SET ... WHERE id = ?`. -/
def updatePostById (id : String) (f : Post → Post) (s : List Post) : List Post :=
  s.map (fun p => if p.id = id then f p else p)

inductive DecisionOutcome
  | not_found
  | already_actioned
  | decided
deriving DecidableEq, Repr

structure DecisionResult where
  outcome : DecisionOutcome
  message : Option String
deriving DecidableEq, Repr

/-- The `previousAction` word used in the already-actioned message:
approval-class statuses (`approved`/`posted`) read "approved", everything
else reads "rejected". -/
def previousActionWord (st : PostStatus) : String :=
  if st = .approved ∨ st = .posted then "approved" else "rejected"

/-- Models `approvePost`: inside one transaction, read the post by id; missing →
not_found; status other than pending → already_actioned naming the prior
action; pending → write status=approved, approved_at=now, approved_by=actor. -/
def approvePost (postId actor : String) (now : Nat) (s : List Post) :
    DecisionResult × List Post :=
  match s.find? (fun p => p.id = postId) with
  | none => ({ outcome := .not_found, message := some "Post not found" }, s)
  | some post =>
    if post.status ≠ .pending then
      ({ outcome := .already_actioned,
         message := some ("The post has already been " ++ previousActionWord post.status) }, s)
    else
      ({ outcome := .decided, message := some post.message },
       updatePostById postId (fun p =>
         { p with status := .approved, approved_at := some now,
                  approved_by := some actor, updated_at := now }) s)

/-- Models `rejectPost`: same guard, writes status=rejected, rejected_by=actor
(no rejected-at column exists). -/
def rejectPost (postId actor : String) (now : Nat) (s : List Post) :
    DecisionResult × List Post :=
  match s.find? (fun p => p.id = postId) with
  | none => ({ outcome := .not_found, message := some "Post not found" }, s)
  | some post =>
    if post.status ≠ .pending then
      ({ outcome := .already_actioned,
         message := some ("The post has already been " ++ previousActionWord post.status) }, s)
    else
      ({ outcome := .decided, message := none },
       updatePostById postId (fun p =>
         { p with status := .rejected, rejected_by := some actor, updated_at := now }) s)

/-- Models `publishToSocial`: the outcome of the external `postTweet` call is an
input (`some tweetId` = resolved, `none` = threw). On success the post is
set to posted with `external_id`; on failure to failed_post (and the error
is re-thrown to the worker). Neither update checks the current status. -/
def publishToSocial (postId : String) (tweetResult : Option String) (now : Nat)
    (s : List Post) : Option String × List Post :=
  match tweetResult with
  | some tid =>
    (some tid, updatePostById postId (fun p =>
      { p with status := .posted, external_id := some tid, updated_at := now }) s)
  | none =>
    (none, updatePostById postId (fun p =>
      { p with status := .failed_post, updated_at := now }) s)

/-- Models the success write of `handleSendSlackApproval`: store the Slack
message metadata in `approval_source`. -/
def setApprovalSource (postId meta : String) (now : Nat) (s : List Post) : List Post :=
  updatePostById postId (fun p =>
    { p with approval_source := some meta, updated_at := now }) s

/-- Models the INSERT of the generation flow: a fresh pending row with no decision
recorded (the SQL primary key rejects duplicate ids, so the insert only
happens when the id is fresh). -/
def insertPost (postId message : String) (now : Nat) (s : List Post) : List Post :=
  if s.any (fun p => p.id = postId) then s
  else
    s ++ [{ id := postId, message := message, status := .pending,
            external_id := none, approved_at := none, approved_by := none,
            rejected_by := none, approval_source := none, updated_at := now }]

/-- Models the catch handler of the generation route: set the status of
the row to failed_approval_send, with no guard on the current status. -/
def markFailedApprovalSend (postId : String) (s : List Post) : List Post :=
  updatePostById postId (fun p => { p with status := .failed_approval_send }) s

/-- One mutating operation on the posts table, as invoked from the
approval route, the worker handlers or the generation flow. -/
inductive PostOp
  | approve (postId actor : String) (now : Nat)
  | reject (postId actor : String) (now : Nat)
  | publish (postId : String) (tweetResult : Option String) (now : Nat)
  | slackMeta (postId meta : String) (now : Nat)
  | insert (postId message : String) (now : Nat)
  | failApprovalSend (postId : String)

def applyPostOp (op : PostOp) (s : List Post) : List Post :=
  match op with
  | .approve postId actor now => (approvePost postId actor now s).2
  | .reject postId actor now => (rejectPost postId actor now s).2
  | .publish postId tw now => (publishToSocial postId tw now s).2
  | .slackMeta postId meta now => setApprovalSource postId meta now s
  | .insert postId message now => insertPost postId message now s
  | .failApprovalSend postId => markFailedApprovalSend postId s

def runPostOps (ops : List PostOp) (s : List Post) : List Post :=
  ops.foldl (fun st op => applyPostOp op st) s

/-- Per-row approval invariant: never both actors, and a recorded actor
means the decision happened, so the status is no longer pending. -/
def postInv (p : Post) : Prop :=
  ¬(p.approved_by ≠ none ∧ p.rejected_by ≠ none) ∧
  ((p.approved_by ≠ none ∨ p.rejected_by ≠ none) → p.status ≠ .pending)

/-- Table invariant: unique primary keys and every row satisfies `postInv`. -/
def storeInv (s : List Post) : Prop :=
  (s.map Post.id).Nodup ∧ ∀ p ∈ s, postInv p

/-! ### Helper lemmas about `updatePostById` -/

theorem updatePostById_id_map (id : String) (f : Post → Post)
    (hf : ∀ p, (f p).id = p.id) (s : List Post) :
    (updatePostById id f s).map Post.id = s.map Post.id := by
  induction s with
  | nil => rfl
  | cons a t ih =>
    simp only [updatePostById, List.map_cons, List.map_map] at *
    by_cases h : a.id = id <;> simp [h, hf, ih]

theorem find?_updatePostById (id : String) (f : Post → Post)
    (hf : ∀ p, (f p).id = p.id) (s : List Post) :
    (updatePostById id f s).find? (fun p => p.id = id)
      = (s.find? (fun p => p.id = id)).map f := by
  induction s with
  | nil => rfl
  | cons a t ih =>
    by_cases h : a.id = id
    · have h1 : (f a).id = id := by rw [hf]; exact h
      simp only [updatePostById, List.map_cons, if_pos h]
      rw [List.find?_cons_of_pos _ (by simp [h1]),
          List.find?_cons_of_pos _ (by simp [h])]
      rfl
    · simp only [updatePostById, List.map_cons, if_neg h]
      rw [List.find?_cons_of_neg _ (by simp [h]),
          List.find?_cons_of_neg _ (by simp [h])]
      exact ih

theorem mem_updatePostById {p : Post} {id : String} {f : Post → Post} {s : List Post}
    (hp : p ∈ updatePostById id f s) :
    ∃ k ∈ s, p = if k.id = id then f k else k := by
  rcases List.mem_map.mp hp with ⟨k, hk, hkp⟩
  exact ⟨k, hk, hkp.symm⟩

theorem updatePostById_mem_of_ne {k : Post} {id : String} {f : Post → Post} {s : List Post}
    (hk : k ∈ s) (hne : k.id ≠ id) : k ∈ updatePostById id f s := by
  have : (if k.id = id then f k else k) = k := if_neg hne
  exact this ▸ List.mem_map_of_mem _ hk

/-! ## Circuit breaker (src/circuit-breaker/index.ts) -/

inductive CircuitState
  | CLOSED
  | OPEN
  | HALF_OPEN
deriving DecidableEq, Repr

structure CircuitBreakerConfig where
  serviceName : String
  failureThreshold : Nat
  resetTimeoutMs : Nat
  successThreshold : Nat
deriving DecidableEq, Repr

structure CircuitBreaker where
  state : CircuitState
  failureCount : Nat
  successCount : Nat
  lastFailureTime : Option Nat
deriving DecidableEq, Repr

/-- Initial breaker state: CLOSED with zeroed counters. -/
def CircuitBreaker.initial : CircuitBreaker :=
  { state := .CLOSED, failureCount := 0, successCount := 0, lastFailureTime := none }

/-- Models `CircuitBreaker.onSuccess`: clear the failure streak; in HALF_OPEN count
the probe success and close once the threshold is reached. -/
def onSuccess (cfg : CircuitBreakerConfig) (b : CircuitBreaker) : CircuitBreaker :=
  let b1 := { b with failureCount := 0 }
  if b1.state = .HALF_OPEN then
    if b1.successCount + 1 ≥ cfg.successThreshold then
      { b1 with state := .CLOSED, successCount := 0 }
    else
      { b1 with successCount := b1.successCount + 1 }
  else b1

/-- Models `CircuitBreaker.onFailure`: stamp the failure time and clear the success
streak; a HALF_OPEN probe failure re-opens immediately, otherwise count the
failure and open once the threshold is reached. -/
def onFailure (cfg : CircuitBreakerConfig) (now : Nat) (b : CircuitBreaker) : CircuitBreaker :=
  let b1 := { b with lastFailureTime := some now, successCount := 0 }
  if b1.state = .HALF_OPEN then
    { b1 with state := .OPEN }
  else
    let fc := b1.failureCount + 1
    if fc ≥ cfg.failureThreshold then
      { b1 with state := .OPEN, failureCount := fc }
    else
      { b1 with failureCount := fc }

/-- The OPEN-state short-circuit guard in `execute`:
`elapsed = now - (lastFailureTime ?? 0)` and the call is rejected when
`elapsed < resetTimeoutMs`. -/
def shortCircuits (cfg : CircuitBreakerConfig) (now : Nat) (b : CircuitBreaker) : Prop :=
  b.state = .OPEN ∧ now - (b.lastFailureTime.getD 0) < cfg.resetTimeoutMs

instance (cfg : CircuitBreakerConfig) (now : Nat) (b : CircuitBreaker) :
    Decidable (shortCircuits cfg now b) := by
  unfold shortCircuits; infer_instance

/-- Result of one `execute` call: the value of the wrapped operation, the
error of the wrapped operation re-thrown, or the CircuitOpenError thrown
without invoking the operation. -/
inductive ExecResult (T : Type)
  | returned (t : T)
  | threw (msg : String)
  | circuitOpen (msg : String)
deriving DecidableEq, Repr

def circuitOpenMessage (serviceName : String) : String :=
  "Circuit is OPEN for service \"" ++ serviceName ++ "\" — request rejected to prevent cascade failure"

/-- Models `CircuitBreaker.execute`: the behaviour of the wrapped operation
is the input `op` (`Except.ok` = resolved, `Except.error` = rejected). Returns the call
outcome, whether the operation was invoked, and the next breaker state. -/
def execute {T : Type} (cfg : CircuitBreakerConfig) (now : Nat)
    (op : Except String T) (b : CircuitBreaker) :
    ExecResult T × Bool × CircuitBreaker :=
  if shortCircuits cfg now b then
    (.circuitOpen (circuitOpenMessage cfg.serviceName), false, b)
  else
    let b1 := if b.state = .OPEN then { b with state := .HALF_OPEN, successCount := 0 } else b
    match op with
    | .ok t => (.returned t, true, onSuccess cfg b1)
    | .error m => (.threw m, true, onFailure cfg now b1)

/-! ## OpenAI adapter error normalisation (src/llm/openai.ts) -/

/-- The single user-safe message every provider failure is normalised to. -/
def GENERIC_GENERATION_ERROR : String :=
  "Unable to generate content right now. Please try again"

/-- The breaker configuration of the module-level `openaiCircuit`. -/
def openaiCircuitConfig : CircuitBreakerConfig :=
  { serviceName := "openai", failureThreshold := 3,
    resetTimeoutMs := 120000, successThreshold := 2 }

/-- What the OpenAI API call inside the try block of the adapter does:
resolve with content, resolve with empty content, or reject. -/
inductive ProviderOutcome
  | success (content : String)
  | emptyContent
  | apiError (msg : String)
deriving DecidableEq, Repr

/-- The function the adapter passes to `openaiCircuit.execute`: the whole
try/catch body. An API rejection and the empty-content throw are both
caught and replaced by the generic error; a non-empty completion resolves. -/
def openAICall (o : ProviderOutcome) : Except String String :=
  match o with
  | .success content => .ok content.trim
  | .emptyContent => .error GENERIC_GENERATION_ERROR
  | .apiError _ => .error GENERIC_GENERATION_ERROR

/-- Models `OpenAIAdapter.generatePost`: run the normalising call through the
shared breaker. -/
def adapterGeneratePost (now : Nat) (o : ProviderOutcome) (b : CircuitBreaker) :
    ExecResult String × Bool × CircuitBreaker :=
  execute openaiCircuitConfig now (openAICall o) b

/-! ## Dequeue lemmas -/

theorem dequeueNext_none_iff {now : Nat} {q : List Job} :
    (dequeueNext now q).1 = none ↔ ∀ k ∈ q, ¬ jobEligible now k := by
  constructor
  · intro h
    unfold dequeueNext at h
    cases hsel : selectNext now q with
    | none => exact selectNext_eq_none.mp hsel
    | some j => rw [hsel] at h; simp at h
  · intro h
    unfold dequeueNext
    rw [selectNext_eq_none.mpr h]

theorem dequeueNext_none_frame {now : Nat} {q : List Job}
    (h : (dequeueNext now q).1 = none) : (dequeueNext now q).2 = q := by
  unfold dequeueNext at h ⊢
  cases hsel : selectNext now q with
  | none => rfl
  | some j => rw [hsel] at h; simp at h

theorem dequeueNext_some_eq {now : Nat} {q : List Job} {j : Job}
    (h : (dequeueNext now q).1 = some j) :
    ∃ j0, selectNext now q = some j0 ∧
      j = { j0 with status := .processing, updated_at := now } ∧
      (dequeueNext now q).2 =
        updateJobById j0.id (fun k =>
          { k with status := .processing, updated_at := now }) q := by
  unfold dequeueNext at h ⊢
  cases hsel : selectNext now q with
  | none => rw [hsel] at h; simp at h
  | some j0 =>
    rw [hsel] at h
    simp only [Option.some.injEq] at h
    exact ⟨j0, rfl, h.symm, rfl⟩

/-! ## Claim theorems -/

/-- C1: for every queue state, dequeueNext selects a pending job with minimal
nextRunAt among those with nextRunAt ≤ now, sets its status to processing
(leaving every other row in place) and returns it; when no pending job is due
it returns none and changes nothing; and a job returned by one dequeueNext
call is processing afterwards, so a subsequent dequeueNext (at any time, with
no intervening markCompleted/markFailed) never returns a job with the same id. -/
theorem dequeueNext_correct (now now2 : Nat) (q : List Job) :
    (∀ j, (dequeueNext now q).1 = some j →
      j.status = .processing ∧
      j ∈ (dequeueNext now q).2 ∧
      (∃ j0 ∈ q, jobEligible now j0 ∧ j.id = j0.id ∧
        j = { j0 with status := .processing, updated_at := now } ∧
        ∀ k ∈ q, jobEligible now k → j0.next_run_at ≤ k.next_run_at) ∧
      (∀ k ∈ q, k.id ≠ j.id → k ∈ (dequeueNext now q).2) ∧
      (∀ j2, (dequeueNext now2 (dequeueNext now q).2).1 = some j2 → j2.id ≠ j.id)) ∧
    ((dequeueNext now q).1 = none ↔ ∀ k ∈ q, ¬ jobEligible now k) ∧
    ((dequeueNext now q).1 = none → (dequeueNext now q).2 = q) := by
  refine ⟨?_, dequeueNext_none_iff, dequeueNext_none_frame⟩
  intro j hj
  obtain ⟨j0, hsel, hjeq, hq'⟩ := dequeueNext_some_eq hj
  obtain ⟨hmem, helig⟩ := selectNext_mem hsel
  subst hjeq
  refine ⟨rfl, ?_, ⟨j0, hmem, helig, rfl, rfl, selectNext_min hsel⟩, ?_, ?_⟩
  · rw [hq']
    have h1 : (fun k => if k.id = j0.id
          then ({ k with status := .processing, updated_at := now } : Job) else k) j0
        = { j0 with status := .processing, updated_at := now } := by simp
    exact h1 ▸ List.mem_map_of_mem _ hmem
  · intro k hk hne
    rw [hq']
    exact updateJobById_mem_of_ne hk hne
  · intro j2 hj2 hid
    obtain ⟨j1, hsel2, hj2eq, _⟩ := dequeueNext_some_eq hj2
    obtain ⟨hmem1, helig1⟩ := selectNext_mem hsel2
    have hj1id : j1.id = j0.id := by
      have : j2.id = j1.id := by rw [hj2eq]
      rw [← this, hid]
    rw [hq'] at hmem1
    obtain ⟨k, _, hk⟩ := mem_updateJobById hmem1
    by_cases hkid : k.id = j0.id
    · rw [if_pos hkid] at hk
      rw [hk] at helig1
      exact absurd helig1.1 (by simp)
    · rw [if_neg hkid] at hk
      exact hkid (by rw [← hk]; exact hj1id)

/-- Concrete queue rows for the dequeue witness: two pending jobs, both due
at time 100, with distinct ids and next_run_at 80 and 50. -/
def jobW1 : Job :=
  { id := "job-a", jobType := "post_to_twitter", payload := "p1",
    status := .pending, attempts := 0, max_retries := 3, next_run_at := 50,
    last_error := none, created_at := 0, updated_at := 0 }

def jobW2 : Job :=
  { id := "job-b", jobType := "send_slack_approval", payload := "p2",
    status := .pending, attempts := 0, max_retries := 3, next_run_at := 80,
    last_error := none, created_at := 0, updated_at := 0 }

def qW : List Job := [jobW2, jobW1]

/-- Witness for C1 at the concrete queue `qW`: the call at time 100 claims
the job with the smaller next_run_at (job-a), returns it as processing, and
the next call at time 200 claims a different id (job-b). -/
theorem dequeueNext_correct_witness :
    (dequeueNext 100 qW).1 = some { jobW1 with status := .processing, updated_at := 100 } ∧
    ({ jobW1 with status := .processing, updated_at := 100 } : Job).status = .processing ∧
    (dequeueNext 200 (dequeueNext 100 qW).2).1
      = some { jobW2 with status := .processing, updated_at := 200 } ∧
    ({ jobW2 with status := .processing, updated_at := 200 } : Job).id
      ≠ ({ jobW1 with status := .processing, updated_at := 100 } : Job).id := by
  refine ⟨by decide, ?_, by decide, ?_⟩
  · exact ((dequeueNext_correct 100 200 qW).1 _ (by decide)).1
  · exact ((dequeueNext_correct 100 200 qW).1 _ (by decide)).2.2.2.2 _ (by decide)

/-! ## markFailed lemmas -/

theorem failUpdate_id (job : Job) (e : String) (now : Nat) (k : Job) :
    (failUpdate job e now k).id = k.id := by
  unfold failUpdate; split <;> rfl

theorem failUpdate_retry {job : Job} (e : String) (now : Nat) (k : Job)
    (h : job.attempts + 1 < job.max_retries) :
    failUpdate job e now k
      = { k with status := .pending, attempts := job.attempts + 1,
                 last_error := some e,
                 next_run_at := now + BASE_BACKOFF_SECONDS * 2 ^ job.attempts * 1000,
                 updated_at := now } := by
  unfold failUpdate
  rw [if_neg (not_le.mpr h)]

theorem failUpdate_dead {job : Job} (e : String) (now : Nat) (k : Job)
    (h : job.attempts + 1 ≥ job.max_retries) :
    failUpdate job e now k
      = { k with status := .dead, attempts := job.attempts + 1,
                 last_error := some e, updated_at := now } := by
  unfold failUpdate
  rw [if_pos h]

theorem mem_markFailed_eq {id e : String} {now : Nat} {q : List Job} {job k : Job}
    (hfind : q.find? (fun j => j.id = id) = some job)
    (hk : k ∈ markFailed id e now q) (hkid : k.id = id) :
    ∃ k0 ∈ q, k = failUpdate job e now k0 := by
  unfold markFailed at hk
  rw [hfind] at hk
  obtain ⟨k0, hk0, hif⟩ := mem_updateJobById hk
  by_cases h : k0.id = id
  · exact ⟨k0, hk0, by rw [hif, if_pos h]⟩
  · rw [if_neg h] at hif
    exact absurd (hif ▸ hkid) h

theorem find?_markFailed {id : String} (e : String) (now : Nat) {q : List Job} {job : Job}
    (hfind : q.find? (fun j => j.id = id) = some job) :
    (markFailed id e now q).find? (fun j => j.id = id) = some (failUpdate job e now job) := by
  unfold markFailed
  rw [hfind, find?_updateJobById _ _ (failUpdate_id job e now), hfind]
  rfl

theorem find?_append_fresh {q : List Job} {jid : String}
    (hfresh : ∀ k ∈ q, k.id ≠ jid) (j : Job) (hj : j.id = jid) :
    (q ++ [j]).find? (fun k => k.id = jid) = some j := by
  induction q with
  | nil => simp [List.find?, hj]
  | cons a t ih =>
    rw [List.cons_append,
        List.find?_cons_of_neg _ (by simp [hfresh a (List.mem_cons_self _ _)])]
    exact ih (fun k hk => hfresh k (List.mem_cons_of_mem _ hk))

/-- C2: markFailed on a present job increments attempts by one; when the
incremented count reaches maxRetries the row becomes dead with lastError
recorded, otherwise pending with lastError recorded and
nextRunAt = now + 30 * 2^(attempts - 1) seconds counted after the increment;
a second retry scheduled at a later wall-clock time lands strictly after the
first; on a missing id markFailed is a no-op; and a job enqueued with
maxRetries = 1 is dead with attempts = 1 after a single markFailed. -/
theorem markFailed_correct (id e : String) (now1 now2 : Nat) (q : List Job) :
    (q.find? (fun j => j.id = id) = none → markFailed id e now1 q = q) ∧
    (∀ job, q.find? (fun j => j.id = id) = some job →
      ∀ k ∈ markFailed id e now1 q, k.id = id →
        k.attempts = job.attempts + 1 ∧
        (job.attempts + 1 ≥ job.max_retries →
          k.status = .dead ∧ k.last_error = some e) ∧
        (job.attempts + 1 < job.max_retries →
          k.status = .pending ∧ k.last_error = some e ∧
          k.next_run_at = now1 + BASE_BACKOFF_SECONDS * 2 ^ job.attempts * 1000)) ∧
    (∀ job, q.find? (fun j => j.id = id) = some job →
      job.attempts + 2 < job.max_retries → now1 ≤ now2 →
      ∀ k ∈ markFailed id e now2 (markFailed id e now1 q), k.id = id →
        k.next_run_at = now2 + BASE_BACKOFF_SECONDS * 2 ^ (job.attempts + 1) * 1000 ∧
        now1 + BASE_BACKOFF_SECONDS * 2 ^ job.attempts * 1000 < k.next_run_at) ∧
    (∀ jid ty payload (delay : Option Nat) (tEnq tFail : Nat),
      (∀ k ∈ q, k.id ≠ jid) →
      ∀ k ∈ markFailed jid e tFail (enqueue jid ty payload 1 delay tEnq q), k.id = jid →
        k.status = .dead ∧ k.attempts = 1) := by
  refine ⟨?_, ?_, ?_, ?_⟩
  · intro hnone
    unfold markFailed
    rw [hnone]
  · intro job hfind k hk hkid
    obtain ⟨k0, _, hkeq⟩ := mem_markFailed_eq hfind hk hkid
    subst hkeq
    unfold failUpdate
    by_cases hge : job.attempts + 1 ≥ job.max_retries
    · rw [if_pos hge]
      exact ⟨rfl, fun _ => ⟨rfl, rfl⟩, fun hlt => absurd hge (not_le.mpr hlt)⟩
    · rw [if_neg hge]
      exact ⟨rfl, fun h => absurd h hge, fun _ => ⟨rfl, rfl, rfl⟩⟩
  · intro job hfind hroom hmono k hk hkid
    have hlt1 : job.attempts + 1 < job.max_retries := by omega
    have hfind1 := find?_markFailed e now1 hfind
    have hJatt : (failUpdate job e now1 job).attempts = job.attempts + 1 := by
      rw [failUpdate_retry e now1 job hlt1]
    have hJmr : (failUpdate job e now1 job).max_retries = job.max_retries := by
      rw [failUpdate_retry e now1 job hlt1]
    obtain ⟨J, hJdef⟩ : ∃ J : Job, failUpdate job e now1 job = J :=
      ⟨failUpdate job e now1 job, rfl⟩
    rw [hJdef] at hfind1 hJatt hJmr
    obtain ⟨k0, _, hkeq⟩ := mem_markFailed_eq hfind1 hk hkid
    have hlt2 : J.attempts + 1 < J.max_retries := by omega
    rw [failUpdate_retry e now2 k0 hlt2] at hkeq
    have hknra : k.next_run_at
        = now2 + BASE_BACKOFF_SECONDS * 2 ^ J.attempts * 1000 := by
      rw [hkeq]
    rw [hknra, hJatt]
    refine ⟨rfl, ?_⟩
    have h2 : BASE_BACKOFF_SECONDS * 2 ^ (job.attempts + 1) * 1000
        = 2 * (BASE_BACKOFF_SECONDS * 2 ^ job.attempts * 1000) := by ring
    have hx : 0 < BASE_BACKOFF_SECONDS * 2 ^ job.attempts * 1000 := by
      unfold BASE_BACKOFF_SECONDS
      positivity
    omega
  · intro jid ty payload delay tEnq tFail hfresh k hk hkid
    have hfind : (enqueue jid ty payload 1 delay tEnq q).find? (fun j => j.id = jid)
        = some { id := jid, jobType := ty, payload := payload, status := .pending,
                 attempts := 0, max_retries := 1,
                 next_run_at := tEnq + delay.getD 0, last_error := none,
                 created_at := tEnq, updated_at := tEnq } := by
      unfold enqueue
      exact find?_append_fresh hfresh _ rfl
    obtain ⟨k0, _, hkeq⟩ := mem_markFailed_eq hfind hk hkid
    subst hkeq
    unfold failUpdate
    rw [if_pos (by simp)]
    exact ⟨rfl, rfl⟩

/-- Witness rows for C2: the queue `qW` with job-a (attempts 0,
maxRetries 3) failed at times 1000 and 2000. -/
def jobAfail1 : Job :=
  { jobW1 with status := .pending, attempts := 1, last_error := some "boom",
               next_run_at := 1000 + BASE_BACKOFF_SECONDS * 2 ^ 0 * 1000,
               updated_at := 1000 }

def jobAfail2 : Job :=
  { jobW1 with status := .pending, attempts := 2, last_error := some "boom",
               next_run_at := 2000 + BASE_BACKOFF_SECONDS * 2 ^ 1 * 1000,
               updated_at := 2000 }

/-- A fresh job with maxRetries 1, and its row after one markFailed. -/
def jxJob : Job :=
  { id := "jx", jobType := "t", payload := "p", status := .pending,
    attempts := 0, max_retries := 1, next_run_at := 0,
    last_error := none, created_at := 0, updated_at := 0 }

def jxJobDead : Job := failUpdate jxJob "boom" 10 jxJob

/-- Witness for C2 on `qW`: the first failure reschedules job-a 30 s out
with attempts 1, the second (at a later time) 60 s out strictly later, and
a fresh job with maxRetries 1 is dead with attempts 1 after one failure. -/
theorem markFailed_correct_witness :
    jobAfail1.attempts = jobW1.attempts + 1 ∧
    jobAfail1.status = .pending ∧
    jobAfail1.last_error = some "boom" ∧
    jobAfail1.next_run_at = 1000 + BASE_BACKOFF_SECONDS * 2 ^ jobW1.attempts * 1000 ∧
    jobAfail2.next_run_at = 2000 + BASE_BACKOFF_SECONDS * 2 ^ (jobW1.attempts + 1) * 1000 ∧
    1000 + BASE_BACKOFF_SECONDS * 2 ^ jobW1.attempts * 1000 < jobAfail2.next_run_at ∧
    jxJobDead.status = .dead ∧ jxJobDead.attempts = 1 := by
  have h1 := (markFailed_correct "job-a" "boom" 1000 2000 qW).2.1 jobW1
    (by decide) jobAfail1 (by decide) (by decide)
  have h2 := (markFailed_correct "job-a" "boom" 1000 2000 qW).2.2.1 jobW1
    (by decide) (by decide) (by decide) jobAfail2 (by decide) (by decide)
  have h3 := (markFailed_correct "job-a" "boom" 10 0 []).2.2.2 "jx" "t" "p" none 0 10
    (by intro k hk; cases hk) jxJobDead (by decide) (by decide)
  exact ⟨h1.1, (h1.2.2 (by decide)).1, (h1.2.2 (by decide)).2.1,
         (h1.2.2 (by decide)).2.2, h2.1, h2.2, h3.1, h3.2⟩

/-! ## resetStuck lemmas -/

theorem zip_map_snd {α β : Type} (f : α → β) (l : List α) :
    ∀ pr ∈ l.zip (l.map f), pr.2 = f pr.1 := by
  induction l with
  | nil => simp
  | cons a t ih =>
    intro pr hpr
    rw [List.map_cons, List.zip_cons_cons] at hpr
    rcases List.mem_cons.mp hpr with rfl | h
    · rfl
    · exact ih pr h

/-- C8: resetStuck returns the number of processing rows whose updatedAt is
older than the 5-minute cutoff; positionally, every such row is reset to
pending (same id, same attempts), and every other row — including processing
rows with fresher updatedAt — is left entirely unchanged. -/
theorem resetStuck_correct (now : Nat) (q : List Job) :
    (resetStuck now q).1 = (q.filter (fun j => decide (jobStuck now j))).length ∧
    (resetStuck now q).2.length = q.length ∧
    ∀ pr ∈ q.zip (resetStuck now q).2,
      (jobStuck now pr.1 →
        pr.2 = { pr.1 with status := .pending, updated_at := now } ∧
        pr.2.attempts = pr.1.attempts ∧ pr.2.id = pr.1.id) ∧
      (¬ jobStuck now pr.1 → pr.2 = pr.1) := by
  refine ⟨rfl, by simp [resetStuck], ?_⟩
  intro pr hpr
  have hq2 : (resetStuck now q).2 = q.map
      (fun k => if jobStuck now k then { k with status := .pending, updated_at := now } else k) :=
    rfl
  rw [hq2] at hpr
  have h2 : pr.2 = if jobStuck now pr.1
      then { pr.1 with status := .pending, updated_at := now } else pr.1 :=
    zip_map_snd
      (fun k => if jobStuck now k then { k with status := .pending, updated_at := now } else k)
      q pr hpr
  constructor
  · intro hstuck
    rw [h2, if_pos hstuck]
    exact ⟨rfl, rfl, rfl⟩
  · intro hns
    rw [h2, if_neg hns]

/-- Witness rows for C8: one stale processing job and one fresh processing
job, swept at time 600000 (cutoff 300000). -/
def stuckJob : Job :=
  { id := "stuck", jobType := "post_to_twitter", payload := "p",
    status := .processing, attempts := 2, max_retries := 3, next_run_at := 0,
    last_error := none, created_at := 0, updated_at := 100000 }

def freshJob : Job :=
  { id := "fresh", jobType := "post_to_twitter", payload := "p",
    status := .processing, attempts := 0, max_retries := 3, next_run_at := 0,
    last_error := none, created_at := 0, updated_at := 400000 }

def qS : List Job := [stuckJob, freshJob]

/-- Witness for C8 on `qS`: exactly one row is affected; the stale row comes
back pending with attempts preserved and the fresh processing row is
untouched. -/
theorem resetStuck_correct_witness :
    (resetStuck 600000 qS).1 = 1 ∧
    (stuckJob, ({ stuckJob with status := .pending, updated_at := 600000 } : Job))
      ∈ qS.zip (resetStuck 600000 qS).2 ∧
    ({ stuckJob with status := .pending, updated_at := 600000 } : Job).attempts
      = stuckJob.attempts ∧
    (freshJob, freshJob) ∈ qS.zip (resetStuck 600000 qS).2 ∧
    (freshJob, freshJob).2 = freshJob := by
  refine ⟨by decide, by decide, ?_, by decide, ?_⟩
  · exact (((resetStuck_correct 600000 qS).2.2
      (stuckJob, { stuckJob with status := .pending, updated_at := 600000 })
      (by decide)).1 (by decide)).2.1
  · exact ((resetStuck_correct 600000 qS).2.2 (freshJob, freshJob) (by decide)).2
      (by decide)

/-! ## Approval lemmas -/

theorem mem_updatePostById_eq {id : String} {f : Post → Post} {s : List Post} {k : Post}
    (hk : k ∈ updatePostById id f s) (hkid : k.id = id) :
    ∃ k0 ∈ s, k = f k0 := by
  obtain ⟨k0, hk0, hif⟩ := mem_updatePostById hk
  by_cases h : k0.id = id
  · exact ⟨k0, hk0, by rw [hif, if_pos h]⟩
  · rw [if_neg h] at hif
    exact absurd (hif ▸ hkid) h

theorem approvePost_none_eq {postId actor : String} {now : Nat} {s : List Post}
    (hfind : s.find? (fun p => p.id = postId) = none) :
    approvePost postId actor now s
      = ({ outcome := .not_found, message := some "Post not found" }, s) := by
  simp only [approvePost, hfind]

theorem approvePost_actioned_eq {postId actor : String} {now : Nat} {s : List Post} {post : Post}
    (hfind : s.find? (fun p => p.id = postId) = some post)
    (hp : post.status ≠ .pending) :
    approvePost postId actor now s
      = ({ outcome := .already_actioned,
           message := some ("The post has already been " ++ previousActionWord post.status) }, s) := by
  simp only [approvePost, hfind]
  rw [if_pos hp]

theorem approvePost_pending_eq {postId actor : String} {now : Nat} {s : List Post} {post : Post}
    (hfind : s.find? (fun p => p.id = postId) = some post)
    (hp : post.status = .pending) :
    approvePost postId actor now s
      = ({ outcome := .decided, message := some post.message },
         updatePostById postId (fun p =>
           { p with status := .approved, approved_at := some now,
                    approved_by := some actor, updated_at := now }) s) := by
  simp only [approvePost, hfind]
  rw [if_neg (not_not_intro hp)]

theorem rejectPost_none_eq {postId actor : String} {now : Nat} {s : List Post}
    (hfind : s.find? (fun p => p.id = postId) = none) :
    rejectPost postId actor now s
      = ({ outcome := .not_found, message := some "Post not found" }, s) := by
  simp only [rejectPost, hfind]

theorem rejectPost_actioned_eq {postId actor : String} {now : Nat} {s : List Post} {post : Post}
    (hfind : s.find? (fun p => p.id = postId) = some post)
    (hp : post.status ≠ .pending) :
    rejectPost postId actor now s
      = ({ outcome := .already_actioned,
           message := some ("The post has already been " ++ previousActionWord post.status) }, s) := by
  simp only [rejectPost, hfind]
  rw [if_pos hp]

theorem rejectPost_pending_eq {postId actor : String} {now : Nat} {s : List Post} {post : Post}
    (hfind : s.find? (fun p => p.id = postId) = some post)
    (hp : post.status = .pending) :
    rejectPost postId actor now s
      = ({ outcome := .decided, message := none },
         updatePostById postId (fun p =>
           { p with status := .rejected, rejected_by := some actor, updated_at := now }) s) := by
  simp only [rejectPost, hfind]
  rw [if_neg (not_not_intro hp)]

/-- C3: approve on a missing record returns not_found writing nothing; on a
record in any status other than pending it returns already_actioned writing
nothing, the message naming the prior action as approved for approved/posted
and rejected otherwise; only on a pending record does it write
status=approved, approvedAt=now, approvedBy=actor, leaving other rows alone;
reject is symmetric with rejectedBy; and a reject following a successful
approve of the same record returns already_actioned and writes nothing, so
approvedBy reflects only the first caller. -/
theorem approveReject_correct (postId actor actor2 : String) (now now2 : Nat) (s : List Post) :
    (s.find? (fun p => p.id = postId) = none →
      (approvePost postId actor now s).1.outcome = .not_found ∧
      (approvePost postId actor now s).2 = s ∧
      (rejectPost postId actor now s).1.outcome = .not_found ∧
      (rejectPost postId actor now s).2 = s) ∧
    (∀ post, s.find? (fun p => p.id = postId) = some post → post.status ≠ .pending →
      (approvePost postId actor now s).1.outcome = .already_actioned ∧
      (approvePost postId actor now s).2 = s ∧
      (approvePost postId actor now s).1.message
        = some ("The post has already been " ++
            (if post.status = .approved ∨ post.status = .posted then "approved" else "rejected")) ∧
      (rejectPost postId actor now s).1.outcome = .already_actioned ∧
      (rejectPost postId actor now s).1.message
        = some ("The post has already been " ++
            (if post.status = .approved ∨ post.status = .posted then "approved" else "rejected")) ∧
      (rejectPost postId actor now s).2 = s) ∧
    (∀ post, s.find? (fun p => p.id = postId) = some post → post.status = .pending →
      (approvePost postId actor now s).1.outcome = .decided ∧
      (∀ pr ∈ s.zip (approvePost postId actor now s).2,
        (pr.1.id = postId →
          pr.2 = { pr.1 with status := .approved, approved_at := some now,
                             approved_by := some actor, updated_at := now }) ∧
        (pr.1.id ≠ postId → pr.2 = pr.1)) ∧
      (rejectPost postId actor2 now2 (approvePost postId actor now s).2).1.outcome
        = .already_actioned ∧
      (rejectPost postId actor2 now2 (approvePost postId actor now s).2).2
        = (approvePost postId actor now s).2) ∧
    (∀ post, s.find? (fun p => p.id = postId) = some post → post.status = .pending →
      (rejectPost postId actor now s).1.outcome = .decided ∧
      (∀ pr ∈ s.zip (rejectPost postId actor now s).2,
        (pr.1.id = postId →
          pr.2 = { pr.1 with status := .rejected, rejected_by := some actor,
                             updated_at := now }) ∧
        (pr.1.id ≠ postId → pr.2 = pr.1))) := by
  refine ⟨?_, ?_, ?_, ?_⟩
  · intro hnone
    rw [approvePost_none_eq hnone, rejectPost_none_eq hnone]
    exact ⟨rfl, rfl, rfl, rfl⟩
  · intro post hfind hne
    rw [approvePost_actioned_eq hfind hne, rejectPost_actioned_eq hfind hne]
    refine ⟨rfl, rfl, ?_, rfl, ?_, rfl⟩
    · unfold previousActionWord
      rfl
    · unfold previousActionWord
      rfl
  · intro post hfind hpend
    rw [approvePost_pending_eq hfind hpend]
    have hfid : ∀ p : Post, ((fun p : Post =>
        { p with status := .approved, approved_at := some now,
                 approved_by := some actor, updated_at := now }) p).id = p.id :=
      fun p => rfl
    have hfind2 : (updatePostById postId (fun p =>
        { p with status := .approved, approved_at := some now,
                 approved_by := some actor, updated_at := now }) s).find?
          (fun p => p.id = postId)
        = some { post with status := .approved, approved_at := some now,
                           approved_by := some actor, updated_at := now } := by
      rw [find?_updatePostById _ _ hfid, hfind]
      rfl
    refine ⟨rfl, ?_, ?_, ?_⟩
    · intro pr hpr
      have hpr2 : pr ∈ s.zip (s.map (fun p => if p.id = postId
          then ({ p with status := .approved, approved_at := some now,
                         approved_by := some actor, updated_at := now } : Post) else p)) := hpr
      have h2 : pr.2 = if pr.1.id = postId
          then { pr.1 with status := .approved, approved_at := some now,
                           approved_by := some actor, updated_at := now } else pr.1 :=
        zip_map_snd
          (fun p => if p.id = postId
            then { p with status := .approved, approved_at := some now,
                          approved_by := some actor, updated_at := now } else p)
          s pr hpr2
      exact ⟨fun h => by rw [h2, if_pos h], fun h => by rw [h2, if_neg h]⟩
    · rw [rejectPost_actioned_eq hfind2 (by simp)]
    · rw [rejectPost_actioned_eq hfind2 (by simp)]
  · intro post hfind hpend
    rw [rejectPost_pending_eq hfind hpend]
    refine ⟨rfl, ?_⟩
    intro pr hpr
    have hpr2 : pr ∈ s.zip (s.map (fun p => if p.id = postId
        then ({ p with status := .rejected, rejected_by := some actor,
                       updated_at := now } : Post) else p)) := hpr
    have h2 : pr.2 = if pr.1.id = postId
        then { pr.1 with status := .rejected, rejected_by := some actor,
                         updated_at := now } else pr.1 :=
      zip_map_snd
        (fun p => if p.id = postId
          then { p with status := .rejected, rejected_by := some actor,
                        updated_at := now } else p)
        s pr hpr2
    exact ⟨fun h => by rw [h2, if_pos h], fun h => by rw [h2, if_neg h]⟩

/-- Concrete posts for the approval witnesses. -/
def postP : Post :=
  { id := "post-1", message := "hello", status := .pending, external_id := none,
    approved_at := none, approved_by := none, rejected_by := none,
    approval_source := none, updated_at := 0 }

def sP : List Post := [postP]

def postPapproved : Post :=
  { postP with status := .approved, approved_at := some 500,
               approved_by := some "alice", updated_at := 500 }

/-- Witness for C3 on `sP`: approving the pending post as alice succeeds and
writes exactly the approval fields; a subsequent reject by bob returns
already_actioned and writes nothing; a missing id gives not_found. -/
theorem approveReject_correct_witness :
    (approvePost "post-1" "alice" 500 sP).1.outcome = .decided ∧
    postPapproved = { postP with status := .approved, approved_at := some 500,
                                 approved_by := some "alice", updated_at := 500 } ∧
    (rejectPost "post-1" "bob" 600 (approvePost "post-1" "alice" 500 sP).2).1.outcome
      = .already_actioned ∧
    (rejectPost "post-1" "bob" 600 (approvePost "post-1" "alice" 500 sP).2).2
      = (approvePost "post-1" "alice" 500 sP).2 ∧
    (approvePost "missing" "alice" 500 sP).1.outcome = .not_found := by
  have h3 := (approveReject_correct "post-1" "alice" "bob" 500 600 sP).2.2.1 postP
    (by decide) (by decide)
  refine ⟨h3.1, ?_, h3.2.2.1, h3.2.2.2, ?_⟩
  · exact (h3.2.1 (postP, postPapproved) (by decide)).1 (by decide)
  · exact ((approveReject_correct "missing" "alice" "bob" 500 600 sP).1 (by decide)).1

/-! ## C6: terminal statuses -/

/-- A record that has reached failed_post (its approver recorded). -/
def postFP : Post :=
  { id := "post-2", message := "m", status := .failed_post, external_id := none,
    approved_at := some 100, approved_by := some "alice", rejected_by := none,
    approval_source := none, updated_at := 100 }

/-- C6 counterexample: `publishToSocial` carries no status guard, so a
retried publish job whose tweet succeeds moves a record that is already in
the terminal status failed_post to posted — contradicting the claim that no
operation ever moves a failed_post record to another status. -/
theorem terminal_status_counterexample :
    postFP.status = .failed_post ∧
    (publishToSocial "post-2" (some "tweet-9") 700 [postFP]).2
      = [{ postFP with status := .posted, external_id := some "tweet-9",
                       updated_at := 700 }] ∧
    ({ postFP with status := .posted, external_id := some "tweet-9",
                   updated_at := 700 } : Post).status ≠ .failed_post := by
  exact ⟨rfl, by decide, by decide⟩

/-- C6 amended: rejected, posted and failed_post are terminal with respect to
the approval decision — approve and reject return already_actioned and write
nothing on such records — but publishToSocial updates its row by id with no
status guard, so a retried publish job that later succeeds moves a
failed_post record to posted automatically. -/
theorem terminal_for_decision (postId actor : String) (now : Nat) (s : List Post)
    (post : Post)
    (hfind : s.find? (fun p => p.id = postId) = some post)
    (hterm : post.status = .rejected ∨ post.status = .posted ∨ post.status = .failed_post) :
    (approvePost postId actor now s).1.outcome = .already_actioned ∧
    (approvePost postId actor now s).2 = s ∧
    (rejectPost postId actor now s).1.outcome = .already_actioned ∧
    (rejectPost postId actor now s).2 = s ∧
    (∀ k ∈ publishToSocial postId (some "t") now s |>.2, k.id = postId →
      k.status = .posted) := by
  have hne : post.status ≠ .pending := by
    rcases hterm with h | h | h <;> simp [h]
  rw [approvePost_actioned_eq hfind hne, rejectPost_actioned_eq hfind hne]
  refine ⟨rfl, rfl, rfl, rfl, ?_⟩
  intro k hk hkid
  obtain ⟨k0, _, hkeq⟩ := mem_updatePostById_eq hk hkid
  rw [hkeq]

/-- Witness for the amended C6: on the concrete failed_post record, approve
and reject refuse to act, while the retried successful publish sets posted. -/
theorem terminal_for_decision_witness :
    (approvePost "post-2" "bob" 800 [postFP]).1.outcome = .already_actioned ∧
    (approvePost "post-2" "bob" 800 [postFP]).2 = [postFP] ∧
    (rejectPost "post-2" "bob" 800 [postFP]).1.outcome = .already_actioned ∧
    (rejectPost "post-2" "bob" 800 [postFP]).2 = [postFP] := by
  have h := terminal_for_decision "post-2" "bob" 800 [postFP] postFP
    (by decide) (Or.inr (Or.inr (by decide)))
  exact ⟨h.1, h.2.1, h.2.2.1, h.2.2.2.1⟩

/-! ## C7: the approval-actor invariant -/

instance (p : Post) : Decidable (postInv p) := by
  unfold postInv; infer_instance

instance (s : List Post) : Decidable (storeInv s) := by
  unfold storeInv; infer_instance

theorem row_eq_of_id {s : List Post} (hnd : (s.map Post.id).Nodup)
    {p k : Post} (hp : p ∈ s) (hk : k ∈ s) (hid : k.id = p.id) : k = p :=
  List.inj_on_of_nodup_map hnd hk hp hid

theorem find?_unique_row {s : List Post} {postId : String} {post k : Post}
    (hnd : (s.map Post.id).Nodup)
    (hfind : s.find? (fun p => p.id = postId) = some post)
    (hk : k ∈ s) (hkid : k.id = postId) : k = post := by
  have hmem : post ∈ s := List.mem_of_find?_eq_some hfind
  have hpid : post.id = postId := by
    have := List.find?_some hfind
    simpa using this
  exact row_eq_of_id hnd hmem hk (by rw [hkid, hpid])

theorem storeInv_updatePostById {s : List Post} {id : String} {f : Post → Post}
    (hf : ∀ p, (f p).id = p.id) (h : storeInv s)
    (hrow : ∀ p ∈ s, p.id = id → postInv (f p)) :
    storeInv (updatePostById id f s) := by
  constructor
  · rw [updatePostById_id_map id f hf]
    exact h.1
  · intro p hp
    obtain ⟨k, hk, hif⟩ := mem_updatePostById hp
    by_cases hkid : k.id = id
    · rw [hif, if_pos hkid]
      exact hrow k hk hkid
    · rw [hif, if_neg hkid]
      exact h.2 k hk

theorem storeInv_approvePost (postId actor : String) (now : Nat) {s : List Post}
    (h : storeInv s) : storeInv (approvePost postId actor now s).2 := by
  cases hfind : s.find? (fun p => p.id = postId) with
  | none =>
    rw [approvePost_none_eq hfind]
    exact h
  | some post =>
    by_cases hpend : post.status = .pending
    · rw [approvePost_pending_eq hfind hpend]
      refine storeInv_updatePostById (fun p => ?_) h (fun p hp hpid => ?_)
      · rfl
      · have hpp : p = post := find?_unique_row h.1 hfind hp hpid
        have hrb : p.rejected_by = none := by
          by_contra hrb
          exact (h.2 p hp).2 (Or.inr hrb) (by rw [hpp]; exact hpend)
        simp [postInv, hrb]
    · rw [approvePost_actioned_eq hfind hpend]
      exact h

theorem storeInv_rejectPost (postId actor : String) (now : Nat) {s : List Post}
    (h : storeInv s) : storeInv (rejectPost postId actor now s).2 := by
  cases hfind : s.find? (fun p => p.id = postId) with
  | none =>
    rw [rejectPost_none_eq hfind]
    exact h
  | some post =>
    by_cases hpend : post.status = .pending
    · rw [rejectPost_pending_eq hfind hpend]
      refine storeInv_updatePostById (fun p => ?_) h (fun p hp hpid => ?_)
      · rfl
      · have hpp : p = post := find?_unique_row h.1 hfind hp hpid
        have hab : p.approved_by = none := by
          by_contra hab
          exact (h.2 p hp).2 (Or.inl hab) (by rw [hpp]; exact hpend)
        simp [postInv, hab]
    · rw [rejectPost_actioned_eq hfind hpend]
      exact h

theorem storeInv_publish (postId : String) (tw : Option String) (now : Nat)
    {s : List Post} (h : storeInv s) : storeInv (publishToSocial postId tw now s).2 := by
  cases tw with
  | some tid =>
    refine storeInv_updatePostById (fun p => ?_) h (fun p hp hx => ?_)
    · rfl
    · have h1 := (h.2 p hp).1
      exact ⟨by simpa using h1, by intro hx2; simp⟩
  | none =>
    refine storeInv_updatePostById (fun p => ?_) h (fun p hp hx => ?_)
    · rfl
    · have h1 := (h.2 p hp).1
      exact ⟨by simpa using h1, by intro hx2; simp⟩

theorem storeInv_slackMeta (postId meta : String) (now : Nat)
    {s : List Post} (h : storeInv s) : storeInv (setApprovalSource postId meta now s) := by
  refine storeInv_updatePostById (fun p => ?_) h (fun p hp hx => ?_)
  · rfl
  · exact ⟨(h.2 p hp).1, (h.2 p hp).2⟩

theorem storeInv_failApprovalSend (postId : String)
    {s : List Post} (h : storeInv s) : storeInv (markFailedApprovalSend postId s) := by
  refine storeInv_updatePostById (fun p => ?_) h (fun p hp hx => ?_)
  · rfl
  · have h1 := (h.2 p hp).1
    exact ⟨by simpa using h1, by intro hx2; simp⟩

theorem storeInv_insertPost (postId message : String) (now : Nat)
    {s : List Post} (h : storeInv s) : storeInv (insertPost postId message now s) := by
  unfold insertPost
  by_cases hdup : s.any (fun p => p.id = postId)
  · rw [if_pos hdup]
    exact h
  · rw [if_neg hdup]
    constructor
    · rw [List.map_append]
      refine List.Nodup.append h.1 (List.nodup_singleton _) ?_
      intro a ha hb
      simp only [List.map_cons, List.map_nil, List.mem_singleton] at hb
      obtain ⟨p, hp, hpid⟩ := List.mem_map.mp ha
      rw [List.any_eq_true] at hdup
      exact hdup ⟨p, hp, by simp [hpid, hb]⟩
    · intro p hp
      rcases List.mem_append.mp hp with h1 | h2
      · exact h.2 p h1
      · have hpeq : p = { id := postId, message := message,
                          status := .pending, external_id := none,
                          approved_at := none, approved_by := none,
                          rejected_by := none, approval_source := none,
                          updated_at := now } := by
          simpa using h2
        rw [hpeq]
        simp [postInv]

theorem storeInv_applyPostOp (op : PostOp) {s : List Post}
    (h : storeInv s) : storeInv (applyPostOp op s) := by
  cases op with
  | approve postId actor now => exact storeInv_approvePost postId actor now h
  | reject postId actor now => exact storeInv_rejectPost postId actor now h
  | publish postId tw now => exact storeInv_publish postId tw now h
  | slackMeta postId meta now => exact storeInv_slackMeta postId meta now h
  | insert postId message now => exact storeInv_insertPost postId message now h
  | failApprovalSend postId => exact storeInv_failApprovalSend postId h

theorem updatePostById_actor_row {id : String} {f : Post → Post} {s : List Post}
    (hf : ∀ x, (f x).id = x.id ∧ (f x).approved_by = x.approved_by ∧
      (f x).rejected_by = x.rejected_by)
    {p : Post} (hp : p ∈ s) :
    ∃ q ∈ updatePostById id f s, q.id = p.id ∧ q.approved_by = p.approved_by ∧
      q.rejected_by = p.rejected_by := by
  refine ⟨if p.id = id then f p else p, List.mem_map_of_mem _ hp, ?_⟩
  by_cases hc : p.id = id
  · rw [if_pos hc]
    exact hf p
  · rw [if_neg hc]
    exact ⟨rfl, rfl, rfl⟩

theorem applyPostOp_actor_row (op : PostOp) {s : List Post} (h : storeInv s)
    {p : Post} (hp : p ∈ s)
    (ha : p.approved_by ≠ none ∨ p.rejected_by ≠ none) :
    ∃ q ∈ applyPostOp op s, q.id = p.id ∧ q.approved_by = p.approved_by ∧
      q.rejected_by = p.rejected_by := by
  cases op with
  | approve postId actor now =>
    show ∃ q ∈ (approvePost postId actor now s).2, _
    cases hfind : s.find? (fun x => x.id = postId) with
    | none =>
      rw [approvePost_none_eq hfind]
      exact ⟨p, hp, rfl, rfl, rfl⟩
    | some post =>
      by_cases hpend : post.status = .pending
      · rw [approvePost_pending_eq hfind hpend]
        have hpid : p.id ≠ postId := by
          intro hid
          have hpp : p = post := find?_unique_row h.1 hfind hp hid
          exact (h.2 p hp).2 ha (by rw [hpp]; exact hpend)
        exact ⟨p, updatePostById_mem_of_ne hp hpid, rfl, rfl, rfl⟩
      · rw [approvePost_actioned_eq hfind hpend]
        exact ⟨p, hp, rfl, rfl, rfl⟩
  | reject postId actor now =>
    show ∃ q ∈ (rejectPost postId actor now s).2, _
    cases hfind : s.find? (fun x => x.id = postId) with
    | none =>
      rw [rejectPost_none_eq hfind]
      exact ⟨p, hp, rfl, rfl, rfl⟩
    | some post =>
      by_cases hpend : post.status = .pending
      · rw [rejectPost_pending_eq hfind hpend]
        have hpid : p.id ≠ postId := by
          intro hid
          have hpp : p = post := find?_unique_row h.1 hfind hp hid
          exact (h.2 p hp).2 ha (by rw [hpp]; exact hpend)
        exact ⟨p, updatePostById_mem_of_ne hp hpid, rfl, rfl, rfl⟩
      · rw [rejectPost_actioned_eq hfind hpend]
        exact ⟨p, hp, rfl, rfl, rfl⟩
  | publish postId tw now =>
    cases tw with
    | some tid =>
      refine updatePostById_actor_row (fun x => ?_) hp
      exact ⟨rfl, rfl, rfl⟩
    | none =>
      refine updatePostById_actor_row (fun x => ?_) hp
      exact ⟨rfl, rfl, rfl⟩
  | slackMeta postId meta now =>
    refine updatePostById_actor_row (fun x => ?_) hp
    exact ⟨rfl, rfl, rfl⟩
  | insert postId message now =>
    show ∃ q ∈ insertPost postId message now s, _
    unfold insertPost
    by_cases hdup : s.any (fun x => x.id = postId)
    · rw [if_pos hdup]
      exact ⟨p, hp, rfl, rfl, rfl⟩
    · rw [if_neg hdup]
      exact ⟨p, List.mem_append_left _ hp, rfl, rfl, rfl⟩
  | failApprovalSend postId =>
    refine updatePostById_actor_row (fun x => ?_) hp
    exact ⟨rfl, rfl, rfl⟩

theorem runPostOps_stable (ops : List PostOp) : ∀ (s : List Post), storeInv s →
    storeInv (runPostOps ops s) ∧
    ∀ p ∈ s, (p.approved_by ≠ none ∨ p.rejected_by ≠ none) →
      ∀ q ∈ runPostOps ops s, q.id = p.id →
        q.approved_by = p.approved_by ∧ q.rejected_by = p.rejected_by := by
  induction ops with
  | nil =>
    intro s h
    refine ⟨h, ?_⟩
    intro p hp _ q hq hid
    rw [row_eq_of_id h.1 hp hq hid]
    exact ⟨rfl, rfl⟩
  | cons op rest ih =>
    intro s h
    have h1 : storeInv (applyPostOp op s) := storeInv_applyPostOp op h
    refine ⟨(ih _ h1).1, ?_⟩
    intro p hp ha q hq hid
    obtain ⟨r, hr, hrid, hra, hrr⟩ := applyPostOp_actor_row op h hp ha
    have ha2 : r.approved_by ≠ none ∨ r.rejected_by ≠ none := by
      rw [hra, hrr]
      exact ha
    have h2 := (ih _ h1).2 r hr ha2 q hq (by rw [hid, ← hrid])
    exact ⟨by rw [h2.1, hra], by rw [h2.2, hrr]⟩

/-- C7: starting from any posts table satisfying the primary-key and
per-row approval invariant, any sequence of the mutating operations
(approve, reject, publish, the Slack-metadata write, the generation insert,
the failed-approval-send write) preserves it, so in every reachable state at
most one of approvedBy/rejectedBy is non-null and a row with either set is
not pending; moreover an already recorded decision is never changed or lost,
and such a row never returns to pending. -/
theorem approval_actors_invariant (ops : List PostOp) (s : List Post) (h : storeInv s) :
    storeInv (runPostOps ops s) ∧
    (∀ p ∈ runPostOps ops s,
      ¬(p.approved_by ≠ none ∧ p.rejected_by ≠ none) ∧
      ((p.approved_by ≠ none ∨ p.rejected_by ≠ none) → p.status ≠ .pending)) ∧
    (∀ p ∈ s, (p.approved_by ≠ none ∨ p.rejected_by ≠ none) →
      ∀ q ∈ runPostOps ops s, q.id = p.id →
        q.approved_by = p.approved_by ∧ q.rejected_by = p.rejected_by ∧
        q.status ≠ .pending) := by
  obtain ⟨hinv, hstable⟩ := runPostOps_stable ops s h
  refine ⟨hinv, fun p hp => hinv.2 p hp, ?_⟩
  intro p hp ha q hq hid
  obtain ⟨h1, h2⟩ := hstable p hp ha q hq hid
  refine ⟨h1, h2, ?_⟩
  exact (hinv.2 q hq).2 (by rw [h1, h2]; exact ha)

/-- Concrete store and operations for the C7 witness: an approved record is
hit by a late reject and then the publish job succeeds. -/
def pA : Post :=
  { id := "post-7", message := "w", status := .approved, external_id := none,
    approved_at := some 100, approved_by := some "alice", rejected_by := none,
    approval_source := none, updated_at := 100 }

def ops7 : List PostOp :=
  [.reject "post-7" "bob" 900, .publish "post-7" (some "tw-1") 950]

def pAfinal : Post :=
  { pA with status := .posted, external_id := some "tw-1", updated_at := 950 }

/-- Witness for C7: after the late reject (refused) and a successful publish,
the row still records alice as the sole decision maker, has no rejector, and
is not pending. -/
theorem approval_actors_invariant_witness :
    pAfinal ∈ runPostOps ops7 [pA] ∧
    pAfinal.approved_by = pA.approved_by ∧
    pAfinal.rejected_by = pA.rejected_by ∧
    pAfinal.status ≠ .pending := by
  refine ⟨by decide, ?_⟩
  exact (approval_actors_invariant ops7 [pA] (by decide)).2.2 pA (by decide)
    (by decide) pAfinal (by decide) (by decide)

/-! ## Circuit breaker claims -/

/-- C4: in CLOSED, each failure increments consecutiveFailures and each
success resets it to 0; when the count reaches failureThreshold the breaker
opens recording lastFailureAt; while OPEN with now - lastFailureAt below
resetTimeoutMs every execute call rejects with the circuit-open error without
invoking the wrapped operation; once the timeout has elapsed the breaker
moves to HALF_OPEN and that call is passed through as the probe. -/
theorem circuitBreaker_closed_open (cfg : CircuitBreakerConfig) (now : Nat)
    {T : Type} (op : Except String T) (b : CircuitBreaker) :
    (b.state = .CLOSED →
      (onFailure cfg now b).failureCount = b.failureCount + 1 ∧
      (onFailure cfg now b).lastFailureTime = some now ∧
      (b.failureCount + 1 ≥ cfg.failureThreshold → (onFailure cfg now b).state = .OPEN) ∧
      (b.failureCount + 1 < cfg.failureThreshold → (onFailure cfg now b).state = .CLOSED)) ∧
    (b.state = .CLOSED →
      (onSuccess cfg b).failureCount = 0 ∧ (onSuccess cfg b).state = .CLOSED) ∧
    (b.state = .OPEN → now - (b.lastFailureTime.getD 0) < cfg.resetTimeoutMs →
      execute cfg now op b
        = (.circuitOpen (circuitOpenMessage cfg.serviceName), false, b)) ∧
    (b.state = .OPEN → ¬ now - (b.lastFailureTime.getD 0) < cfg.resetTimeoutMs →
      (execute cfg now op b).2.1 = true ∧
      ((execute cfg now op b).2.2
          = onSuccess cfg { b with state := .HALF_OPEN, successCount := 0 } ∨
        (execute cfg now op b).2.2
          = onFailure cfg now { b with state := .HALF_OPEN, successCount := 0 })) := by
  refine ⟨?_, ?_, ?_, ?_⟩
  · intro hc
    unfold onFailure
    rw [if_neg (by rw [hc]; simp)]
    by_cases ht : b.failureCount + 1 ≥ cfg.failureThreshold
    · rw [if_pos ht]
      exact ⟨rfl, rfl, fun _ => rfl, fun hlt => absurd ht (not_le.mpr hlt)⟩
    · rw [if_neg ht]
      refine ⟨rfl, rfl, fun hge => absurd hge ht, fun _ => ?_⟩
      simpa using hc
  · intro hc
    unfold onSuccess
    rw [if_neg (by rw [hc]; simp)]
    exact ⟨rfl, by simpa using hc⟩
  · intro ho hlt
    unfold execute
    rw [if_pos ⟨ho, hlt⟩]
  · intro ho hge
    unfold execute
    rw [if_neg (by intro hsc; exact hge hsc.2), if_pos ho]
    cases op with
    | ok t => exact ⟨rfl, Or.inl rfl⟩
    | error m => exact ⟨rfl, Or.inr rfl⟩

/-- C5: a HALF_OPEN probe failure re-opens immediately, stamping
lastFailureAt with now, regardless of prior counts; a probe success
increments consecutiveSuccesses, closing the breaker with both counters
cleared exactly when the threshold is reached and otherwise staying
HALF_OPEN; and HALF_OPEN calls are let through. -/
theorem circuitBreaker_halfOpen (cfg : CircuitBreakerConfig) (now : Nat)
    {T : Type} (op : Except String T) (b : CircuitBreaker) :
    (b.state = .HALF_OPEN →
      (onFailure cfg now b).state = .OPEN ∧
      (onFailure cfg now b).lastFailureTime = some now) ∧
    (b.state = .HALF_OPEN → b.successCount + 1 ≥ cfg.successThreshold →
      onSuccess cfg b = { state := .CLOSED, failureCount := 0, successCount := 0,
                          lastFailureTime := b.lastFailureTime }) ∧
    (b.state = .HALF_OPEN → b.successCount + 1 < cfg.successThreshold →
      (onSuccess cfg b).state = .HALF_OPEN ∧
      (onSuccess cfg b).successCount = b.successCount + 1 ∧
      (onSuccess cfg b).failureCount = 0) ∧
    (b.state = .HALF_OPEN → (execute cfg now op b).2.1 = true) := by
  refine ⟨?_, ?_, ?_, ?_⟩
  · intro hh
    unfold onFailure
    rw [if_pos (by simpa using hh)]
    exact ⟨rfl, rfl⟩
  · intro hh hge
    unfold onSuccess
    rw [if_pos (by simpa using hh), if_pos hge]
  · intro hh hlt
    unfold onSuccess
    rw [if_pos (by simpa using hh), if_neg (not_le.mpr hlt)]
    exact ⟨by simpa using hh, rfl, rfl⟩
  · intro hh
    unfold execute
    rw [if_neg (by intro hsc; have h1 := hsc.1; rw [hh] at h1; exact absurd h1 (by simp))]
    rw [if_neg (by rw [hh]; simp)]
    cases op with
    | ok t => rfl
    | error m => rfl

/-- Witness for C4 with threshold 2, reset 1000: two failures from CLOSED
open the breaker stamping the failure time; at time 600 the call is
rejected unchanged without invoking the operation; at time 1600 the probe
is let through. -/
def cfgW : CircuitBreakerConfig :=
  { serviceName := "svc", failureThreshold := 2, resetTimeoutMs := 1000,
    successThreshold := 2 }

def bClosed1 : CircuitBreaker :=
  { state := .CLOSED, failureCount := 1, successCount := 0, lastFailureTime := some 50 }

def bOpen : CircuitBreaker :=
  { state := .OPEN, failureCount := 2, successCount := 0, lastFailureTime := some 100 }

theorem circuitBreaker_closed_open_witness :
    (onFailure cfgW 100 bClosed1).failureCount = bClosed1.failureCount + 1 ∧
    (onFailure cfgW 100 bClosed1).state = .OPEN ∧
    (onFailure cfgW 100 bClosed1).lastFailureTime = some 100 ∧
    execute cfgW 600 (Except.ok "r") bOpen
      = (.circuitOpen (circuitOpenMessage "svc"), false, bOpen) ∧
    (execute cfgW 1600 (Except.ok "r") bOpen).2.1 = true := by
  have h := circuitBreaker_closed_open cfgW 100 (Except.ok "r") bClosed1
  have h1 := h.1 (by decide)
  have h2 := (circuitBreaker_closed_open cfgW 600 (Except.ok "r") bOpen).2.2.1
    (by decide) (by decide)
  have h3 := (circuitBreaker_closed_open cfgW 1600 (Except.ok "r") bOpen).2.2.2
    (by decide) (by decide)
  exact ⟨h1.1, h1.2.2.1 (by decide), h1.2.1, h2, h3.1⟩

/-- Witness for C5: breaker HALF_OPEN with one prior probe success and
successThreshold 2 — a further success closes it with counters cleared; from
a fresh HALF_OPEN state a success keeps it HALF_OPEN at count 1; a probe
failure at time 700 re-opens with lastFailureAt 700. -/
def bHalf0 : CircuitBreaker :=
  { state := .HALF_OPEN, failureCount := 0, successCount := 0, lastFailureTime := some 100 }

def bHalf1 : CircuitBreaker :=
  { state := .HALF_OPEN, failureCount := 0, successCount := 1, lastFailureTime := some 100 }

theorem circuitBreaker_halfOpen_witness :
    onSuccess cfgW bHalf1
      = { state := .CLOSED, failureCount := 0, successCount := 0,
          lastFailureTime := some 100 } ∧
    (onSuccess cfgW bHalf0).state = .HALF_OPEN ∧
    (onSuccess cfgW bHalf0).successCount = 1 ∧
    (onFailure cfgW 700 bHalf0).state = .OPEN ∧
    (onFailure cfgW 700 bHalf0).lastFailureTime = some 700 ∧
    (execute cfgW 700 (Except.ok "r") bHalf0).2.1 = true := by
  have h1 := (circuitBreaker_halfOpen cfgW 700 (Except.ok "r") bHalf1).2.1
    (by decide) (by decide)
  have h2 := (circuitBreaker_halfOpen cfgW 700 (Except.ok "r") bHalf0).2.2.1
    (by decide) (by decide)
  have h3 := (circuitBreaker_halfOpen cfgW 700 (Except.ok "r") bHalf0).1 (by decide)
  have h4 := (circuitBreaker_halfOpen cfgW 700 (Except.ok "r") bHalf0).2.2.2 (by decide)
  exact ⟨h1, h2.1, h2.2.1, h3.1, h3.2, h4⟩

/-- C10: an execute call on an OPEN breaker before the reset timeout throws
the CircuitOpenError without invoking the wrapped operation and returns the
breaker exactly as it was — state, lastFailureAt and both counters are all
unchanged, so short-circuited rejections are never counted as failures and
never move lastFailureAt. -/
theorem circuitOpen_shortCircuit_frame (cfg : CircuitBreakerConfig) (now : Nat)
    {T : Type} (op : Except String T) (b : CircuitBreaker)
    (hopen : b.state = .OPEN)
    (hearly : now - (b.lastFailureTime.getD 0) < cfg.resetTimeoutMs) :
    execute cfg now op b
      = (.circuitOpen (circuitOpenMessage cfg.serviceName), false, b) := by
  unfold execute
  rw [if_pos ⟨hopen, hearly⟩]

/-- Witness for C10 on `bOpen` at time 600 (elapsed 500 < 1000): the call is
rejected and the returned breaker is the very same record. -/
theorem circuitOpen_shortCircuit_frame_witness :
    execute cfgW 600 (Except.error "boom" : Except String String) bOpen
      = (.circuitOpen (circuitOpenMessage "svc"), false, bOpen) :=
  circuitOpen_shortCircuit_frame cfgW 600 (Except.error "boom") bOpen
    (by decide) (by decide)

/-! ## C9: generation error normalisation -/

/-- C9 counterexample: with the openai breaker OPEN and the reset timeout not
yet elapsed, generatePost surfaces the CircuitOpenError message, not the
stable user-safe generation message. -/
def openaiOpenBreaker : CircuitBreaker :=
  { state := .OPEN, failureCount := 3, successCount := 0, lastFailureTime := some 1000 }

theorem generation_error_counterexample :
    (adapterGeneratePost 2000 (.apiError "socket hang up") openaiOpenBreaker).1
      = .circuitOpen (circuitOpenMessage "openai") ∧
    circuitOpenMessage "openai" ≠ GENERIC_GENERATION_ERROR := by
  constructor
  · rfl
  · decide

/-- C9 amended: whenever the wrapped OpenAI call is actually invoked — the
breaker does not short-circuit — any failure surfaced to the caller carries
the single stable user-safe message, whatever the underlying provider error
was; but when the call is short-circuited because the breaker is OPEN, the
caller instead receives the distinguished CircuitOpenError with its own
message. -/
theorem generation_error_normalised (now : Nat) (o : ProviderOutcome)
    (b : CircuitBreaker) :
    (¬ shortCircuits openaiCircuitConfig now b →
      ∀ m, (adapterGeneratePost now o b).1 = .threw m →
        m = GENERIC_GENERATION_ERROR) ∧
    (shortCircuits openaiCircuitConfig now b →
      (adapterGeneratePost now o b).1
        = .circuitOpen (circuitOpenMessage "openai")) := by
  constructor
  · intro h m hm
    unfold adapterGeneratePost execute at hm
    rw [if_neg h] at hm
    cases o with
    | success content => simp [openAICall] at hm
    | emptyContent =>
      simp only [openAICall] at hm
      have := ExecResult.threw.inj hm
      exact this.symm
    | apiError msg =>
      simp only [openAICall] at hm
      have := ExecResult.threw.inj hm
      exact this.symm
  · intro h
    unfold adapterGeneratePost execute
    rw [if_pos h]
    rfl

/-- Witness for the amended C9: an invoked API failure and the empty-content
case both surface the generic message, while the short-circuited call on the
OPEN breaker surfaces the CircuitOpenError message. -/
theorem generation_error_normalised_witness :
    GENERIC_GENERATION_ERROR = GENERIC_GENERATION_ERROR ∧
    (adapterGeneratePost 2000 (.apiError "rate limited") CircuitBreaker.initial).1
      = .threw GENERIC_GENERATION_ERROR ∧
    (adapterGeneratePost 2000 (.apiError "x") openaiOpenBreaker).1
      = .circuitOpen (circuitOpenMessage "openai") := by
  refine ⟨?_, by rfl, ?_⟩
  · exact (generation_error_normalised 2000 (.apiError "rate limited")
      CircuitBreaker.initial).1 (by decide) GENERIC_GENERATION_ERROR (by rfl)
  · exact (generation_error_normalised 2000 (.apiError "x") openaiOpenBreaker).2
      (by decide)

end SocialAgent
